import Mathlib

/-!
Shallow embedding of the gpt-proxy-split metering reverse proxy.

The repository is a Go HTTP proxy in front of a chat-completion API.  The
request-proxy pipeline lives in two near-duplicate files (a chat-style
variant and a prompt-style variant); the persistent storage layer is
`db.go`.  The embedding below translates the pipeline into pure Lean
functions producing an event trace: every externally observable action of a
call (storage access, tokenizer invocation, response-writer operation,
upstream send, upstream line read) becomes one `Ev` value, in the order the
Go code performs it.  External collaborators (JSON syntax parsing, the
tokenizer, storage results, the upstream response) enter as explicit
function-valued parameters in `Env`, exactly where the Go code calls out to
them; the struct-level JSON decoding semantics of `encoding/json` for the
three body shapes is modelled concretely over a JSON AST because the code's
behaviour (zero values for missing fields) depends on it.

HTTP wire semantics of Go's `net/http.ResponseWriter` (the header map, the
one-shot status commit, superfluous `WriteHeader` calls being ignored) is
modelled by folding `wireStep` over the event trace.
-/

namespace GptProxySplit

/-- ASCII case folding, the fragment of Go `strings.EqualFold` exercised by
`encoding/json` field matching on the field names of this codebase. -/
def asciiLower (c : Char) : Char :=
  if 65 ≤ c.toNat ∧ c.toNat ≤ 90 then Char.ofNat (c.toNat + 32) else c

/-- Case-insensitive field-name match used by Go `encoding/json` when
binding a JSON key to a struct field or tag. -/
def eqFold (a b : String) : Bool :=
  a.toList.map asciiLower == b.toList.map asciiLower

/-- Go `unicode.IsSpace` restricted to the Latin-1 code points. -/
def goIsSpace (c : Char) : Bool :=
  c = ' ' || c = '\t' || c = '\n' || c = '\r' ||
  c.toNat = 11 || c.toNat = 12 || c.toNat = 133 || c.toNat = 160

/-- Go `strings.TrimSpace`. -/
def goTrimSpace (s : String) : String :=
  String.mk (((s.toList.dropWhile goIsSpace).reverse.dropWhile goIsSpace).reverse)

/-- List-level string-prefix test (Go `strings.HasPrefix`). -/
def lstartsWith : List Char → List Char → Bool
  | _, [] => true
  | [], _ :: _ => false
  | c :: cs, p :: ps => c = p && lstartsWith cs ps

/-- Go `strings.HasPrefix`. -/
def hasPfx (s p : String) : Bool :=
  lstartsWith s.toList p.toList

/-- Go byte-slicing `s[n:]` on ASCII-prefixed strings. -/
def dropChars (s : String) (n : Nat) : String :=
  String.mk (s.toList.drop n)

/-- Go `strings.TrimPrefix`. -/
def goTrimPfx (s p : String) : String :=
  if hasPfx s p then dropChars s p.toList.length else s

/-- JSON value AST (numbers restricted to integers, which is all the
decoded fields of this codebase can accept without an unmarshal error). -/
inductive Json where
  | null
  | bool (b : Bool)
  | num (n : Int)
  | str (s : String)
  | arr (elems : List Json)
  | obj (fields : List (String × Json))

/-- Go `encoding/json` unmarshal of a JSON value into the inner
`struct { TotalTokens int `total_tokens` }` of `completionResponseBody`,
starting from the current field value (Go decodes in place). -/
def decodeTotalTokens : Json → Int → Option Int
  | Json.null, cur => some cur
  | Json.obj fs, cur =>
    fs.foldlM (fun acc kv =>
      if eqFold kv.1 "total_tokens" then
        match kv.2 with
        | Json.num n => some n
        | Json.null => some acc
        | _ => none
      else some acc) cur
  | _, _ => none

/-- Go `encoding/json` unmarshal of a JSON value into
`completionResponseBody`, yielding `Usage.TotalTokens`.  Missing fields
keep their zero value; unknown fields are ignored; a type mismatch is an
unmarshal error (`none`). -/
def decodeCompletionResponseBody : Json → Option Int
  | Json.null => some 0
  | Json.obj fs =>
    fs.foldlM (fun acc kv =>
      if eqFold kv.1 "Usage" then decodeTotalTokens kv.2 acc else some acc) 0
  | _ => none

/-- Go unmarshal into the inner `struct { Content string }` of a streamed
choice's `Delta`. -/
def decodeDelta : Json → String → Option String
  | Json.null, cur => some cur
  | Json.obj fs, cur =>
    fs.foldlM (fun acc kv =>
      if eqFold kv.1 "Content" then
        match kv.2 with
        | Json.str s => some s
        | Json.null => some acc
        | _ => none
      else some acc) cur
  | _, _ => none

/-- Go unmarshal of one element of `Choices`, yielding `Delta.Content`. -/
def decodeChoice : Json → Option String
  | Json.null => some ""
  | Json.obj fs =>
    fs.foldlM (fun acc kv =>
      if eqFold kv.1 "Delta" then decodeDelta kv.2 acc else some acc) ""
  | _ => none

/-- Go unmarshal into `completionResponseStreamedBody`, yielding the list
of `Delta.Content` strings of `Choices`. -/
def decodeStreamedBody : Json → Option (List String)
  | Json.null => some []
  | Json.obj fs =>
    fs.foldlM (fun acc kv =>
      if eqFold kv.1 "Choices" then
        match kv.2 with
        | Json.null => some []
        | Json.arr xs => xs.mapM decodeChoice
        | _ => none
      else some acc) []
  | _ => none

/-- Normalized decode of the chat-style `completionRequestBody`
(`Model`, `Messages[].Content`, `Suffix`, `Stream`). -/
structure CRB where
  model : String := ""
  messages : List String := []
  suffix : String := ""
  stream : Bool := false
  deriving DecidableEq

/-- Go unmarshal of one element of `Messages`, yielding `Content`. -/
def decodeMessage : Json → Option String
  | Json.null => some ""
  | Json.obj fs =>
    fs.foldlM (fun acc kv =>
      if eqFold kv.1 "Content" then
        match kv.2 with
        | Json.str s => some s
        | Json.null => some acc
        | _ => none
      else some acc) ""
  | _ => none

/-- One field-binding step of Go unmarshal into `completionRequestBody`. -/
def decodeCRBField (acc : CRB) (kv : String × Json) : Option CRB :=
  if eqFold kv.1 "Model" then
    match kv.2 with
    | Json.str s => some { acc with model := s }
    | Json.null => some acc
    | _ => none
  else if eqFold kv.1 "Messages" then
    match kv.2 with
    | Json.null => some { acc with messages := [] }
    | Json.arr xs => (xs.mapM decodeMessage).map (fun ms => { acc with messages := ms })
    | _ => none
  else if eqFold kv.1 "Suffix" then
    match kv.2 with
    | Json.str s => some { acc with suffix := s }
    | Json.null => some acc
    | _ => none
  else if eqFold kv.1 "Stream" then
    match kv.2 with
    | Json.bool b => some { acc with stream := b }
    | Json.null => some acc
    | _ => none
  else some acc

/-- Go unmarshal into the chat-style `completionRequestBody`. -/
def decodeCompletionRequestBody : Json → Option CRB
  | Json.null => some {}
  | Json.obj fs => fs.foldlM decodeCRBField {}
  | _ => none

/-- Normalized decode of the prompt-style `completionRequestBody`
(`Model`, `Prompt`, `Suffix`, `Stream`). -/
structure CRBPrompt where
  model : String := ""
  prompt : String := ""
  suffix : String := ""
  stream : Bool := false
  deriving DecidableEq

/-- One field-binding step of Go unmarshal into the prompt-style
`completionRequestBody`. -/
def decodeCRBPromptField (acc : CRBPrompt) (kv : String × Json) : Option CRBPrompt :=
  if eqFold kv.1 "Model" then
    match kv.2 with
    | Json.str s => some { acc with model := s }
    | Json.null => some acc
    | _ => none
  else if eqFold kv.1 "Prompt" then
    match kv.2 with
    | Json.str s => some { acc with prompt := s }
    | Json.null => some acc
    | _ => none
  else if eqFold kv.1 "Suffix" then
    match kv.2 with
    | Json.str s => some { acc with suffix := s }
    | Json.null => some acc
    | _ => none
  else if eqFold kv.1 "Stream" then
    match kv.2 with
    | Json.bool b => some { acc with stream := b }
    | Json.null => some acc
    | _ => none
  else some acc

/-- Go unmarshal into the prompt-style `completionRequestBody`. -/
def decodeCompletionRequestBodyPrompt : Json → Option CRBPrompt
  | Json.null => some {}
  | Json.obj fs => fs.foldlM decodeCRBPromptField {}
  | _ => none

/-- One externally observable action of a proxied call, in program order. -/
inductive Ev where
  | getConn
  | findUser (key : String)
  | getProject (userID : Int) (name : String)
  | getModel (name : String)
  | saveUsage (modelID : Int) (projectID : Int) (tokens : Int)
  | forModel (name : String)
  | encode (text : String)
  | hdrDel (k : String)
  | hdrAdd (k : String) (v : String)
  | hdrSet (k : String) (v : String)
  | writeHeaderCall (code : Nat)
  | write (s : String)
  | flush
  | upstreamSend
  | readLine (line : String)
  deriving DecidableEq

/-- Events performed by Go `http.Error`: two header sets, a `WriteHeader`
call with the given code, and `Fprintln` of the message (appending a
newline) to the body. -/
def httpErrorEvs (msg : String) (code : Nat) : List Ev :=
  [Ev.hdrSet "Content-Type" "text/plain; charset=utf-8",
   Ev.hdrSet "X-Content-Type-Options" "nosniff",
   Ev.writeHeaderCall code,
   Ev.write (msg ++ "\n")]

/-- The sequence of complete newline-terminated lines that successive
`bufio.Reader.ReadString` calls deliver from a byte stream; a trailing
fragment without a newline is delivered only together with the read error
and the streaming loop discards it on the error path, so it is dropped. -/
def sseLinesAux : List Char → List Char → List String
  | [], _ => []
  | c :: rest, acc =>
    if c = '\n' then String.mk (acc.reverse ++ ['\n']) :: sseLinesAux rest []
    else sseLinesAux rest (c :: acc)

/-- Lines of the upstream SSE body as `ReadString` yields them. -/
def sseLines (s : String) : List String :=
  sseLinesAux s.toList []

/-- Per-line accumulation of the logical SSE message: a `data:`-prefixed
line contributes its payload (prefix stripped, space-trimmed). -/
def dataLineUpd (msg line : String) : String :=
  if hasPfx line "data:" then msg ++ goTrimSpace (dropChars line 5) else msg

/-- Accumulation of `dataLineUpd` over the lines of a block. -/
def msgAcc (msg : String) (ls : List String) : String :=
  ls.foldl dataLineUpd msg

/-- The streaming read loop of `proxySSEResponse` (source lines 103-156):
read a line (error on exhausted input aborts with a 502 `http.Error`),
write it to the client and flush, accumulate `data:` payloads until a blank
line terminates the message, then either stop on the `[DONE]` sentinel and
save the usage record, or unmarshal the message, require exactly one
choice, tokenize its delta content and continue with the updated total. -/
def sseRun (tk : String → Option (List Nat)) (jp : String → Option Json) :
    List String → String → Int → Int → Nat → List Ev
  | [], _, _, _, _ => httpErrorEvs "failed to read response" 502
  | line :: rest, msg, modelID, projectID, nTokens =>
    Ev.readLine line :: Ev.write line :: Ev.flush ::
    (if line = "\n" then
      (if msg = "[DONE]" then [Ev.saveUsage modelID projectID (nTokens : Int)]
       else
        match (jp msg).bind decodeStreamedBody with
        | none => httpErrorEvs "failed to unmarshal response" 502
        | some contents =>
          if contents.length ≠ 1 then
            httpErrorEvs "0 or more than 1 choices in response" 502
          else
            Ev.encode (contents.headD "") ::
            (match tk (contents.headD "") with
             | none => httpErrorEvs "failed to tokenize message" 502
             | some ids => sseRun tk jp rest "" modelID projectID (nTokens + ids.length)))
     else sseRun tk jp rest (dataLineUpd msg line) modelID projectID nTokens)

/-- The prompt-tokenizing loop at the top of `proxySSEResponse` (source
lines 88-97): tokenize every message content, summing the id-list lengths;
the first tokenizer failure stops the loop with no total. -/
def promptTokens (tk : String → Option (List Nat)) : List String → Nat → List Ev × Option Nat
  | [], n => ([], some n)
  | c :: cs, n =>
    match tk c with
    | none => ([Ev.encode c], none)
    | some ids =>
      let r := promptTokens tk cs (n + ids.length)
      (Ev.encode c :: r.1, r.2)

/-- The upstream response as the proxy receives it. -/
structure UpstreamResponse where
  statusCode : Nat
  headers : List (String × List String)
  body : String

/-- External collaborators of one proxied call: storage results, the
tokenizer registry, JSON syntax parsing, the upstream call's outcome, and
the I/O failure switches of the two body reads and the flusher upgrade. -/
structure Env where
  findUser : String → Except Unit (Option (Int × String))
  getProjectIDRes : Int → String → Except Unit Int
  getModelIDRes : String → Except Unit Int
  forModel : String → Option (String → Option (List Nat))
  jsonParse : String → Option Json
  upstream : Option UpstreamResponse
  reqBodyReadErr : Bool
  upstreamBodyReadErr : Bool
  flusherOK : Bool

/-- The inbound request fields the pipeline inspects. -/
structure Request where
  method : String
  rawQuery : String
  authHeader : String
  xProject : String
  body : String

/-- `proxySSEResponse` (chat variant, source lines 74-157): flusher
upgrade, streaming headers and `WriteHeader(200)` plus flush, prompt
tokenization, then the streaming read loop. -/
def proxySSEResponse (env : Env) (crb : CRB) (tk : String → Option (List Nat))
    (modelID projectID : Int) (respBody : String) : List Ev :=
  if !env.flusherOK then httpErrorEvs "Streaming setup failed" 500
  else
    Ev.hdrSet "Content-Type" "text/event-stream" ::
    Ev.hdrSet "Cache-Control" "no-cache" ::
    Ev.hdrSet "Connection" "keep-alive" ::
    Ev.writeHeaderCall 200 ::
    Ev.flush ::
    (let r := promptTokens tk crb.messages 0
     r.1 ++
      match r.2 with
      | none => httpErrorEvs "failed to tokenize prompt" 502
      | some nTokens => sseRun tk env.jsonParse (sseLines respBody) "" modelID projectID nTokens)

/-- `proxyPlainResponse` (chat variant, source lines 159-185): buffer the
whole upstream body, unmarshal it for `Usage.TotalTokens`, save the usage
record, then write the original buffered bytes to the client. -/
def proxyPlainResponse (env : Env) (modelID projectID : Int) (respBody : String) : List Ev :=
  if env.upstreamBodyReadErr then httpErrorEvs "failed to read response" 502
  else
    match (env.jsonParse respBody).bind decodeCompletionResponseBody with
    | none => httpErrorEvs "failed to parse response" 502
    | some n => [Ev.saveUsage modelID projectID n, Ev.write respBody]

/-- The header pass-through loop of `proxyRequest` (source lines 276-282):
for each upstream header key, delete it from the response-writer map then
add every upstream value. -/
def copyHeadersEvs (hs : List (String × List String)) : List Ev :=
  hs.flatMap (fun kv => Ev.hdrDel kv.1 :: kv.2.map (Ev.hdrAdd kv.1))

/-- `proxyRequest` (chat variant, source lines 187-299): method and query
checks, storage connection, user lookup by bearer key, project get-or-create
(defaulting the label), request-body read and unmarshal, tokenizer and
model resolution, upstream call, header/status pass-through, then the
non-200 copy-through or one of the two 200 relays. -/
def proxyRequest (env : Env) (r : Request) : List Ev :=
  if r.method ≠ "POST" then httpErrorEvs "Only POST requests are supported" 400
  else if r.rawQuery ≠ "" then httpErrorEvs "Query parameters are not supported" 400
  else
    Ev.getConn ::
    Ev.findUser (goTrimPfx r.authHeader "Bearer ") ::
    match env.findUser (goTrimPfx r.authHeader "Bearer ") with
    | Except.error _ => httpErrorEvs "Failed to find user" 500
    | Except.ok none => httpErrorEvs "Invalid API key" 401
    | Except.ok (some (userID, _userName)) =>
      Ev.getProject userID (if r.xProject = "" then "<default>" else r.xProject) ::
      match env.getProjectIDRes userID (if r.xProject = "" then "<default>" else r.xProject) with
      | Except.error _ => httpErrorEvs "failed to find project" 500
      | Except.ok projectID =>
        if env.reqBodyReadErr then httpErrorEvs "failed to read request body" 500
        else
          match (env.jsonParse r.body).bind decodeCompletionRequestBody with
          | none => httpErrorEvs "failed to parse request body" 400
          | some crb =>
            Ev.forModel crb.model ::
            match env.forModel crb.model with
            | none => httpErrorEvs ("failed to find model " ++ crb.model) 400
            | some tk =>
              Ev.getModel crb.model ::
              match env.getModelIDRes crb.model with
              | Except.error _ => httpErrorEvs ("failed to get model " ++ crb.model) 500
              | Except.ok modelID =>
                Ev.upstreamSend ::
                match env.upstream with
                | none => httpErrorEvs "Failed to read response from OpenAI" 502
                | some resp =>
                  copyHeadersEvs resp.headers ++ Ev.writeHeaderCall resp.statusCode ::
                  (if resp.statusCode ≠ 200 then [Ev.write resp.body]
                   else if crb.stream then
                     proxySSEResponse env crb tk modelID projectID resp.body
                   else proxyPlainResponse env modelID projectID resp.body)

/-- `proxyRequest` of the prompt-style variant (second source file, lines
364-502): same pipeline, but a set streaming flag is rejected as
bad-request right after body decoding, the tokenizer codec is discarded,
and the 200 plain relay is inlined. -/
def proxyRequestPromptVariant (env : Env) (r : Request) : List Ev :=
  if r.method ≠ "POST" then httpErrorEvs "Only POST requests are supported" 400
  else if r.rawQuery ≠ "" then httpErrorEvs "Query parameters are not supported" 400
  else
    Ev.getConn ::
    Ev.findUser (goTrimPfx r.authHeader "Bearer ") ::
    match env.findUser (goTrimPfx r.authHeader "Bearer ") with
    | Except.error _ => httpErrorEvs "Failed to find user" 500
    | Except.ok none => httpErrorEvs "Invalid API key" 401
    | Except.ok (some (userID, _userName)) =>
      Ev.getProject userID (if r.xProject = "" then "<default>" else r.xProject) ::
      match env.getProjectIDRes userID (if r.xProject = "" then "<default>" else r.xProject) with
      | Except.error _ => httpErrorEvs "failed to find project" 500
      | Except.ok projectID =>
        if env.reqBodyReadErr then httpErrorEvs "failed to read request body" 500
        else
          match (env.jsonParse r.body).bind decodeCompletionRequestBodyPrompt with
          | none => httpErrorEvs "failed to parse request body" 400
          | some crb =>
            if crb.stream then httpErrorEvs "streaming responses are not yet supported" 400
            else
              Ev.forModel crb.model ::
              match env.forModel crb.model with
              | none => httpErrorEvs ("failed to find model " ++ crb.model) 400
              | some _tk =>
                Ev.getModel crb.model ::
                match env.getModelIDRes crb.model with
                | Except.error _ => httpErrorEvs ("failed to get model " ++ crb.model) 500
                | Except.ok modelID =>
                  Ev.upstreamSend ::
                  match env.upstream with
                  | none => httpErrorEvs "Failed to read response from OpenAI" 502
                  | some resp =>
                    copyHeadersEvs resp.headers ++ Ev.writeHeaderCall resp.statusCode ::
                    (if resp.statusCode = 200 then
                      (if env.upstreamBodyReadErr then httpErrorEvs "failed to read response" 502
                       else
                        match (env.jsonParse resp.body).bind decodeCompletionResponseBody with
                        | none => httpErrorEvs "failed to parse response" 502
                        | some n => [Ev.saveUsage modelID projectID n, Ev.write resp.body])
                     else [Ev.write resp.body])

/-- Go `http.Header.Del` on the assoc-list model of the header map. -/
def hDel (h : List (String × List String)) (k : String) : List (String × List String) :=
  h.filter (fun kv => kv.1 ≠ k)

/-- Go `http.Header.Add`. -/
def hAdd (h : List (String × List String)) (k v : String) : List (String × List String) :=
  if h.any (fun kv => kv.1 = k) then
    h.map (fun kv => if kv.1 = k then (kv.1, kv.2 ++ [v]) else kv)
  else h ++ [(k, [v])]

/-- Go `http.Header.Set`. -/
def hSet (h : List (String × List String)) (k v : String) : List (String × List String) :=
  if h.any (fun kv => kv.1 = k) then
    h.map (fun kv => if kv.1 = k then (kv.1, [v]) else kv)
  else h ++ [(k, [v])]

/-- Client-observable state of a Go `ResponseWriter`: the mutable header
map, the committed status line (at most one per call), the header snapshot
sent with it, and the body bytes written after it. -/
structure Wire where
  hdrs : List (String × List String)
  status : Option Nat
  sentHdrs : List (String × List String)
  body : List String

/-- Go `net/http` wire semantics of one event: header mutations take
effect only before the status is committed; the first `WriteHeader` commits
status and headers and later calls are superfluous no-ops; a `Write`
before any `WriteHeader` commits an implicit 200 first. -/
def wireStep (w : Wire) : Ev → Wire
  | Ev.hdrDel k => if w.status.isSome then w else { w with hdrs := hDel w.hdrs k }
  | Ev.hdrAdd k v => if w.status.isSome then w else { w with hdrs := hAdd w.hdrs k v }
  | Ev.hdrSet k v => if w.status.isSome then w else { w with hdrs := hSet w.hdrs k v }
  | Ev.writeHeaderCall c =>
    if w.status.isSome then w else { w with status := some c, sentHdrs := w.hdrs }
  | Ev.write s =>
    match w.status with
    | some _ => { w with body := w.body ++ [s] }
    | none => { hdrs := w.hdrs, status := some 200, sentHdrs := w.hdrs, body := w.body ++ [s] }
  | _ => w

/-- The wire outcome of a whole event trace, starting from the empty
header map of a fresh handler invocation. -/
def wireOf (t : List Ev) : Wire :=
  t.foldl wireStep { hdrs := [], status := none, sentHdrs := [], body := [] }

/-- The usage records inserted during a trace, in order. -/
def usageEvents (t : List Ev) : List (Int × Int × Int) :=
  t.filterMap (fun e =>
    match e with
    | Ev.saveUsage a b c => some (a, b, c)
    | _ => none)

/-- The tokenizer `Encode` calls of a trace, in order. -/
def encCalls (t : List Ev) : List String :=
  t.filterMap (fun e =>
    match e with
    | Ev.encode s => some s
    | _ => none)

/-- The upstream lines read during a trace, in order. -/
def readsOf (t : List Ev) : List String :=
  t.filterMap (fun e =>
    match e with
    | Ev.readLine l => some l
    | _ => none)

/-- The body chunks passed to `ResponseWriter.Write` during a trace. -/
def bodyWrites (t : List Ev) : List String :=
  t.filterMap (fun e =>
    match e with
    | Ev.write s => some s
    | _ => none)

/-- The storage-access events of a trace. -/
def dbEvents (t : List Ev) : List Ev :=
  t.filter (fun e =>
    match e with
    | Ev.getConn | Ev.findUser _ | Ev.getProject _ _ | Ev.getModel _ | Ev.saveUsage _ _ _ => true
    | _ => false)

/-- The three events the streaming loop performs for one line before any
semantic processing of it: read, write to client, flush. -/
def lineTriple (l : String) : List Ev :=
  [Ev.readLine l, Ev.write l, Ev.flush]

/-- One well-formed non-sentinel SSE block as the streaming loop consumes
it: its payload lines (the blank terminator excluded), the single
delta-content string its assembled message decodes to, and the token ids
that content encodes to. -/
structure Blk where
  lines : List String
  content : String
  ids : List Nat

/-- The lines of a block as emitted on the wire: payload lines followed by
the blank terminator. -/
def blkLines (b : Blk) : List String :=
  b.lines ++ ["\n"]

/-- The block is consumed successfully by the streaming loop: no payload
line is blank, its assembled message is not the end sentinel, the message
decodes to exactly one choice with the block's content, and the tokenizer
accepts that content with the block's ids. -/
def goodBlk (tk : String → Option (List Nat)) (jp : String → Option Json) (b : Blk) : Prop :=
  (∀ l ∈ b.lines, l ≠ "\n") ∧
  msgAcc "" b.lines ≠ "[DONE]" ∧
  (jp (msgAcc "" b.lines)).bind decodeStreamedBody = some [b.content] ∧
  tk b.content = some b.ids

instance goodBlkDecidable (tk : String → Option (List Nat)) (jp : String → Option Json)
    (b : Blk) : Decidable (goodBlk tk jp b) := by
  unfold goodBlk
  infer_instance

/-- Total number of delta tokens over a sequence of blocks. -/
def sumIds (bs : List Blk) : Nat :=
  (bs.map (fun b => b.ids.length)).sum

/-- Pure effect of one upstream header entry on the response-writer header
map: delete the key, then add every value. -/
def hdrEntry (h : List (String × List String)) (kv : String × List String) :
    List (String × List String) :=
  kv.2.foldl (fun h2 v => hAdd h2 kv.1 v) (hDel h kv.1)

/-- Concrete tokenizer for evaluation: a string encodes to one id per
character. -/
def tkLen (s : String) : Option (List Nat) :=
  some (List.range s.toList.length)

/-- Concrete chat-style request body JSON with the streaming flag on. -/
def reqJsonChatStream : Json :=
  Json.obj [("model", Json.str "gpt-x"),
            ("messages", Json.arr [Json.obj [("content", Json.str "hi")]]),
            ("stream", Json.bool true)]

/-- Concrete chat-style request body JSON with the streaming flag off. -/
def reqJsonChat : Json :=
  Json.obj [("model", Json.str "gpt-x"),
            ("messages", Json.arr [Json.obj [("content", Json.str "hi")]]),
            ("stream", Json.bool false)]

/-- Concrete prompt-style request body JSON with the streaming flag on. -/
def reqJsonPromptStream : Json :=
  Json.obj [("model", Json.str "gpt-x"),
            ("prompt", Json.str "hi"),
            ("stream", Json.bool true)]

/-- Concrete non-streaming 200 response JSON with 7 total tokens. -/
def respJsonUsage7 : Json :=
  Json.obj [("usage", Json.obj [("total_tokens", Json.num 7)])]

/-- Concrete valid response JSON with no usage field at all. -/
def respJsonNoUsage : Json :=
  Json.obj [("foo", Json.str "bar")]

/-- Concrete streamed-chunk JSON with one choice whose delta content is
"ab". -/
def streamJsonAb : Json :=
  Json.obj [("choices",
             Json.arr [Json.obj [("delta", Json.obj [("content", Json.str "ab")])]])]

/-- Concrete JSON syntax oracle used by the evaluation fixtures. -/
def jpFix (s : String) : Option Json :=
  if s = "REQ" then some reqJsonChat
  else if s = "REQSTREAM" then some reqJsonChatStream
  else if s = "REQPROMPTSTREAM" then some reqJsonPromptStream
  else if s = "RESP" then some respJsonUsage7
  else if s = "RESPNOUSAGE" then some respJsonNoUsage
  else if s = "X" then some streamJsonAb
  else none

/-- Concrete environment fixture: key "abc" maps to user 1 "alice",
project 2, model 3, tokenizer `tkLen`, JSON oracle `jpFix`, no upstream
response yet, no I/O failures. -/
def envFix : Env where
  findUser := fun k => if k = "abc" then Except.ok (some (1, "alice")) else Except.ok none
  getProjectIDRes := fun _ _ => Except.ok 2
  getModelIDRes := fun _ => Except.ok 3
  forModel := fun _ => some tkLen
  jsonParse := jpFix
  upstream := none
  reqBodyReadErr := false
  upstreamBodyReadErr := false
  flusherOK := true

/-- Environment fixture whose upstream answered 404. -/
def envNon200 : Env :=
  { envFix with upstream := some { statusCode := 404, headers := [("X-A", ["1"])], body := "oops" } }

/-- Environment fixture whose upstream answered 200 with an unparseable
body. -/
def env200Bad : Env :=
  { envFix with
      upstream := some { statusCode := 200,
                         headers := [("Content-Type", ["application/json"])],
                         body := "BAD" } }

/-- Concrete well-formed inbound request fixture. -/
def reqStd : Request where
  method := "POST"
  rawQuery := ""
  authHeader := "Bearer abc"
  xProject := ""
  body := "REQ"

/-- Concrete chat request decode fixture with streaming on. -/
def crbC1 : CRB where
  model := "gpt-x"
  messages := ["hi"]
  suffix := ""
  stream := true

/-- Concrete SSE block fixture: one data line whose payload decodes to one
choice with content "ab", which `tkLen` encodes to two ids. -/
def blkC1 : Blk where
  lines := ["data:X\n"]
  content := "ab"
  ids := [0, 1]

theorem usageEvents_append (a b : List Ev) :
    usageEvents (a ++ b) = usageEvents a ++ usageEvents b := by
  simp [usageEvents]

theorem encCalls_append (a b : List Ev) :
    encCalls (a ++ b) = encCalls a ++ encCalls b := by
  simp [encCalls]

theorem readsOf_append (a b : List Ev) :
    readsOf (a ++ b) = readsOf a ++ readsOf b := by
  simp [readsOf]

theorem bodyWrites_append (a b : List Ev) :
    bodyWrites (a ++ b) = bodyWrites a ++ bodyWrites b := by
  simp [bodyWrites]

theorem usageEvents_httpErrorEvs (msg : String) (code : Nat) :
    usageEvents (httpErrorEvs msg code) = [] := rfl

theorem encCalls_httpErrorEvs (msg : String) (code : Nat) :
    encCalls (httpErrorEvs msg code) = [] := rfl

theorem readsOf_httpErrorEvs (msg : String) (code : Nat) :
    readsOf (httpErrorEvs msg code) = [] := rfl

theorem bodyWrites_httpErrorEvs (msg : String) (code : Nat) :
    bodyWrites (httpErrorEvs msg code) = [msg ++ "\n"] := rfl

theorem copyHeadersEvs_shape (hs : List (String × List String)) (e : Ev)
    (he : e ∈ copyHeadersEvs hs) :
    (∃ k, e = Ev.hdrDel k) ∨ (∃ k v, e = Ev.hdrAdd k v) := by
  simp only [copyHeadersEvs, List.mem_flatMap, List.mem_cons, List.mem_map] at he
  obtain ⟨kv, _, h | h⟩ := he
  · exact Or.inl ⟨kv.1, h⟩
  · obtain ⟨v, _, hv⟩ := h
    exact Or.inr ⟨kv.1, v, hv.symm⟩

theorem usageEvents_copyHeadersEvs (hs : List (String × List String)) :
    usageEvents (copyHeadersEvs hs) = [] := by
  rw [usageEvents, List.filterMap_eq_nil_iff]
  intro e he
  rcases copyHeadersEvs_shape hs e he with ⟨k, rfl⟩ | ⟨k, v, rfl⟩ <;> rfl

theorem encCalls_copyHeadersEvs (hs : List (String × List String)) :
    encCalls (copyHeadersEvs hs) = [] := by
  rw [encCalls, List.filterMap_eq_nil_iff]
  intro e he
  rcases copyHeadersEvs_shape hs e he with ⟨k, rfl⟩ | ⟨k, v, rfl⟩ <;> rfl

theorem bodyWrites_copyHeadersEvs (hs : List (String × List String)) :
    bodyWrites (copyHeadersEvs hs) = [] := by
  rw [bodyWrites, List.filterMap_eq_nil_iff]
  intro e he
  rcases copyHeadersEvs_shape hs e he with ⟨k, rfl⟩ | ⟨k, v, rfl⟩ <;> rfl

theorem readsOf_copyHeadersEvs (hs : List (String × List String)) :
    readsOf (copyHeadersEvs hs) = [] := by
  rw [readsOf, List.filterMap_eq_nil_iff]
  intro e he
  rcases copyHeadersEvs_shape hs e he with ⟨k, rfl⟩ | ⟨k, v, rfl⟩ <;> rfl

theorem writeHeaderCall_not_mem_copyHeadersEvs (hs : List (String × List String)) (c : Nat) :
    Ev.writeHeaderCall c ∉ copyHeadersEvs hs := by
  intro h
  rcases copyHeadersEvs_shape hs _ h with ⟨k, hk⟩ | ⟨k, v, hk⟩ <;> exact Ev.noConfusion hk

theorem decodeCompletionResponseBody_no_usage (fs : List (String × Json))
    (h : ∀ kv ∈ fs, eqFold kv.1 "Usage" = false) :
    decodeCompletionResponseBody (Json.obj fs) = some 0 := by
  show List.foldlM _ (0 : Int) fs = some 0
  induction fs with
  | nil => rfl
  | cons kv fs ih =>
    have h1 : eqFold kv.1 "Usage" = false := h kv (by simp)
    rw [List.foldlM_cons, h1]
    simp only [Bool.false_eq_true, if_false, Option.some_bind]
    exact ih (fun x hx => h x (by simp [hx]))

/-- Claim C3: for a non-streaming 200 upstream response whose body
unmarshals to total-token count n, the plain relay inserts exactly one
usage record with count n, and the body written to the client is the
buffered upstream body itself, byte for byte. -/
theorem C3_plain_usage_and_exact_body
    (env : Env) (modelID projectID : Int) (respBody : String) (n : Int)
    (hread : env.upstreamBodyReadErr = false)
    (hparse : (env.jsonParse respBody).bind decodeCompletionResponseBody = some n) :
    usageEvents (proxyPlainResponse env modelID projectID respBody) = [(modelID, projectID, n)] ∧
    bodyWrites (proxyPlainResponse env modelID projectID respBody) = [respBody] := by
  rw [proxyPlainResponse, hread, hparse]
  exact ⟨rfl, rfl⟩

theorem C3_plain_usage_and_exact_body_witness :
    usageEvents (proxyPlainResponse envFix 3 2 "RESP") = [(3, 2, 7)] ∧
    bodyWrites (proxyPlainResponse envFix 3 2 "RESP") = ["RESP"] :=
  C3_plain_usage_and_exact_body envFix 3 2 "RESP" 7 rfl (by decide)

/-- Claim C9: for a non-streaming 200 upstream response whose body is
valid JSON containing no usage field, the decoded count defaults to zero
and the plain relay still inserts exactly one usage record, with count
zero. -/
theorem C9_missing_usage_defaults_zero
    (env : Env) (modelID projectID : Int) (respBody : String) (fs : List (String × Json))
    (hread : env.upstreamBodyReadErr = false)
    (hjson : env.jsonParse respBody = some (Json.obj fs))
    (hnousage : ∀ kv ∈ fs, eqFold kv.1 "Usage" = false) :
    usageEvents (proxyPlainResponse env modelID projectID respBody) =
      [(modelID, projectID, 0)] := by
  have hdec : (env.jsonParse respBody).bind decodeCompletionResponseBody = some 0 := by
    rw [hjson, Option.some_bind, decodeCompletionResponseBody_no_usage fs hnousage]
  rw [proxyPlainResponse, hread, hdec]
  rfl

theorem C9_missing_usage_defaults_zero_witness :
    usageEvents (proxyPlainResponse envFix 3 2 "RESPNOUSAGE") = [(3, 2, 0)] :=
  C9_missing_usage_defaults_zero envFix 3 2 "RESPNOUSAGE" [("foo", Json.str "bar")]
    rfl rfl (by decide)

/-- Claim C7: a request whose URL carries a non-empty query string is
rejected with status 400 and its trace contains no storage access at all:
no connection, no user lookup, no project row, no model row, no usage
record. -/
theorem C7_query_rejected_before_storage (env : Env) (r : Request)
    (hq : r.rawQuery ≠ "") :
    dbEvents (proxyRequest env r) = [] ∧
    (wireOf (proxyRequest env r)).status = some 400 := by
  by_cases hm : r.method = "POST"
  · have ht : proxyRequest env r = httpErrorEvs "Query parameters are not supported" 400 := by
      rw [proxyRequest]
      simp [hm, hq]
    rw [ht]
    exact ⟨rfl, rfl⟩
  · have ht : proxyRequest env r = httpErrorEvs "Only POST requests are supported" 400 := by
      rw [proxyRequest]
      simp [hm]
    rw [ht]
    exact ⟨rfl, rfl⟩

theorem C7_query_rejected_before_storage_witness :
    dbEvents (proxyRequest envFix { reqStd with rawQuery := "a=b" }) = [] ∧
    (wireOf (proxyRequest envFix { reqStd with rawQuery := "a=b" })).status = some 400 :=
  C7_query_rejected_before_storage envFix { reqStd with rawQuery := "a=b" } (by decide)

/-- Claim C8: a call with a valid credential whose body is malformed JSON
is rejected with status 400, yet the project get-or-create has already run
before the body was decoded: the trace contains the project access in the
part preceding the bad-request error, and no usage record is inserted.  The
rejection is therefore not atomic with respect to storage. -/
theorem C8_project_row_before_body_reject
    (env : Env) (r : Request) (uid : Int) (uname : String) (pid : Int)
    (hm : r.method = "POST") (hq : r.rawQuery = "")
    (hu : env.findUser (goTrimPfx r.authHeader "Bearer ") = Except.ok (some (uid, uname)))
    (hpr : env.getProjectIDRes uid (if r.xProject = "" then "<default>" else r.xProject) =
      Except.ok pid)
    (hb : env.reqBodyReadErr = false)
    (hbad : (env.jsonParse r.body).bind decodeCompletionRequestBody = none) :
    (∃ pre, proxyRequest env r = pre ++ httpErrorEvs "failed to parse request body" 400 ∧
      Ev.getProject uid (if r.xProject = "" then "<default>" else r.xProject) ∈ pre) ∧
    (wireOf (proxyRequest env r)).status = some 400 ∧
    usageEvents (proxyRequest env r) = [] := by
  have ht : proxyRequest env r =
      [Ev.getConn, Ev.findUser (goTrimPfx r.authHeader "Bearer "),
       Ev.getProject uid (if r.xProject = "" then "<default>" else r.xProject)] ++
        httpErrorEvs "failed to parse request body" 400 := by
    rw [proxyRequest]
    simp [hm, hq, hu, hpr, hb, hbad]
  rw [ht]
  exact ⟨⟨_, rfl, by simp⟩, rfl, rfl⟩

theorem C8_project_row_before_body_reject_witness :
    (∃ pre, proxyRequest envFix { reqStd with body := "NOTJSON" } =
        pre ++ httpErrorEvs "failed to parse request body" 400 ∧
      Ev.getProject 1 "<default>" ∈ pre) ∧
    (wireOf (proxyRequest envFix { reqStd with body := "NOTJSON" })).status = some 400 ∧
    usageEvents (proxyRequest envFix { reqStd with body := "NOTJSON" }) = [] := by
  have h := C8_project_row_before_body_reject envFix { reqStd with body := "NOTJSON" }
    1 "alice" 2 rfl rfl rfl rfl rfl (by decide)
  simpa using h

/-- Claim C10: in the prompt-style variant, a decoded body with the
streaming flag set is rejected with status 400 before the upstream call,
before tokenizer resolution and before model resolution, and no usage
record is produced. -/
theorem C10_prompt_variant_streaming_rejected
    (env : Env) (r : Request) (uid : Int) (uname : String) (pid : Int) (crb : CRBPrompt)
    (hm : r.method = "POST") (hq : r.rawQuery = "")
    (hu : env.findUser (goTrimPfx r.authHeader "Bearer ") = Except.ok (some (uid, uname)))
    (hpr : env.getProjectIDRes uid (if r.xProject = "" then "<default>" else r.xProject) =
      Except.ok pid)
    (hb : env.reqBodyReadErr = false)
    (hdec : (env.jsonParse r.body).bind decodeCompletionRequestBodyPrompt = some crb)
    (hs : crb.stream = true) :
    (wireOf (proxyRequestPromptVariant env r)).status = some 400 ∧
    (∀ s, Ev.forModel s ∉ proxyRequestPromptVariant env r) ∧
    (∀ s, Ev.getModel s ∉ proxyRequestPromptVariant env r) ∧
    Ev.upstreamSend ∉ proxyRequestPromptVariant env r ∧
    usageEvents (proxyRequestPromptVariant env r) = [] := by
  have ht : proxyRequestPromptVariant env r =
      [Ev.getConn, Ev.findUser (goTrimPfx r.authHeader "Bearer "),
       Ev.getProject uid (if r.xProject = "" then "<default>" else r.xProject)] ++
        httpErrorEvs "streaming responses are not yet supported" 400 := by
    rw [proxyRequestPromptVariant]
    simp [hm, hq, hu, hpr, hb, hdec, hs]
  rw [ht]
  refine ⟨rfl, ?_, ?_, ?_, rfl⟩ <;> simp [httpErrorEvs]

theorem C10_prompt_variant_streaming_rejected_witness :
    (wireOf (proxyRequestPromptVariant envFix { reqStd with body := "REQPROMPTSTREAM" })).status =
      some 400 ∧
    (∀ s, Ev.forModel s ∉ proxyRequestPromptVariant envFix { reqStd with body := "REQPROMPTSTREAM" }) ∧
    (∀ s, Ev.getModel s ∉ proxyRequestPromptVariant envFix { reqStd with body := "REQPROMPTSTREAM" }) ∧
    Ev.upstreamSend ∉ proxyRequestPromptVariant envFix { reqStd with body := "REQPROMPTSTREAM" } ∧
    usageEvents (proxyRequestPromptVariant envFix { reqStd with body := "REQPROMPTSTREAM" }) = [] :=
  C10_prompt_variant_streaming_rejected envFix { reqStd with body := "REQPROMPTSTREAM" }
    1 "alice" 2 { model := "gpt-x", prompt := "hi", stream := true }
    rfl rfl rfl rfl rfl (by decide) rfl

/-- Claim C6 evaluated at a failing input: the non-streaming 200 path with
an unparseable upstream body.  The code invokes the gateway-failure error
(`WriteHeader` with 502 appears in the trace) and inserts no usage record
and writes no upstream body bytes, but the status line was already
committed as 200 by the header pass-through before parsing, so under the
wire semantics the client-visible status is 200, not the gateway-failure
status; only the error text reaches the client, as the 200 response's
body. -/
theorem C6_plain_parse_failure_wire_status :
    (wireOf (proxyRequest env200Bad reqStd)).status = some 200 ∧
    Ev.writeHeaderCall 502 ∈ proxyRequest env200Bad reqStd ∧
    usageEvents (proxyRequest env200Bad reqStd) = [] ∧
    bodyWrites (proxyRequest env200Bad reqStd) = ["failed to parse response\n"] := by
  decide

/-- Claim C5: for a non-200 upstream response (the streaming flag of the
decoded request being arbitrary), the relay performs zero tokenization
calls, inserts zero usage records, and the only body bytes written to the
client are exactly the upstream body, byte for byte. -/
theorem C5_non200_copy_no_usage
    (env : Env) (r : Request) (uid : Int) (uname : String) (pid : Int) (crb : CRB)
    (tk : String → Option (List Nat)) (mid : Int) (resp : UpstreamResponse)
    (hm : r.method = "POST") (hq : r.rawQuery = "")
    (hu : env.findUser (goTrimPfx r.authHeader "Bearer ") = Except.ok (some (uid, uname)))
    (hpr : env.getProjectIDRes uid (if r.xProject = "" then "<default>" else r.xProject) =
      Except.ok pid)
    (hb : env.reqBodyReadErr = false)
    (hdec : (env.jsonParse r.body).bind decodeCompletionRequestBody = some crb)
    (hfm : env.forModel crb.model = some tk)
    (hmid : env.getModelIDRes crb.model = Except.ok mid)
    (hup : env.upstream = some resp)
    (hst : resp.statusCode ≠ 200) :
    usageEvents (proxyRequest env r) = [] ∧
    encCalls (proxyRequest env r) = [] ∧
    bodyWrites (proxyRequest env r) = [resp.body] := by
  have ht : proxyRequest env r =
      [Ev.getConn, Ev.findUser (goTrimPfx r.authHeader "Bearer "),
       Ev.getProject uid (if r.xProject = "" then "<default>" else r.xProject),
       Ev.forModel crb.model, Ev.getModel crb.model, Ev.upstreamSend] ++
        (copyHeadersEvs resp.headers ++
          [Ev.writeHeaderCall resp.statusCode, Ev.write resp.body]) := by
    rw [proxyRequest]
    simp [hm, hq, hu, hpr, hb, hdec, hfm, hmid, hup, hst]
  rw [ht]
  refine ⟨?_, ?_, ?_⟩
  · rw [usageEvents_append, usageEvents_append, usageEvents_copyHeadersEvs]
    rfl
  · rw [encCalls_append, encCalls_append, encCalls_copyHeadersEvs]
    rfl
  · rw [bodyWrites_append, bodyWrites_append, bodyWrites_copyHeadersEvs]
    rfl

theorem sseRun_nonblank (tk : String → Option (List Nat)) (jp : String → Option Json)
    (b : List String) (hb : ∀ l ∈ b, l ≠ "\n") (rest : List String) (msg : String)
    (m p : Int) (n : Nat) :
    sseRun tk jp (b ++ rest) msg m p n =
      b.flatMap lineTriple ++ sseRun tk jp rest (msgAcc msg b) m p n := by
  induction b generalizing msg with
  | nil => simp [msgAcc]
  | cons l b ih =>
    have hl : l ≠ "\n" := hb l (by simp)
    have ht : sseRun tk jp (l :: (b ++ rest)) msg m p n =
        Ev.readLine l :: Ev.write l :: Ev.flush ::
          sseRun tk jp (b ++ rest) (dataLineUpd msg l) m p n := by
      simp [sseRun, hl]
    rw [List.cons_append, ht, ih (fun x hx => hb x (by simp [hx])) (dataLineUpd msg l)]
    simp [lineTriple, msgAcc]

theorem sseRun_block (tk : String → Option (List Nat)) (jp : String → Option Json)
    (b : Blk) (hg : goodBlk tk jp b) (rest : List String) (m p : Int) (n : Nat) :
    sseRun tk jp (blkLines b ++ rest) "" m p n =
      (b.lines.flatMap lineTriple ++ lineTriple "\n" ++ [Ev.encode b.content]) ++
        sseRun tk jp rest "" m p (n + b.ids.length) := by
  obtain ⟨h1, h2, h3, h4⟩ := hg
  have hsplit : blkLines b ++ rest = b.lines ++ ("\n" :: rest) := by
    simp [blkLines]
  rw [hsplit, sseRun_nonblank tk jp b.lines h1 ("\n" :: rest) "" m p n]
  have ht : sseRun tk jp ("\n" :: rest) (msgAcc "" b.lines) m p n =
      Ev.readLine "\n" :: Ev.write "\n" :: Ev.flush ::
        Ev.encode b.content :: sseRun tk jp rest "" m p (n + b.ids.length) := by
    simp [sseRun, h2, h3, h4]
  rw [ht]
  simp [lineTriple]

theorem sseRun_blocks (tk : String → Option (List Nat)) (jp : String → Option Json)
    (bs : List Blk) (hg : ∀ b ∈ bs, goodBlk tk jp b) (rest : List String)
    (m p : Int) (n : Nat) :
    sseRun tk jp (bs.flatMap blkLines ++ rest) "" m p n =
      bs.flatMap (fun b => b.lines.flatMap lineTriple ++ lineTriple "\n" ++
          [Ev.encode b.content]) ++
        sseRun tk jp rest "" m p (n + sumIds bs) := by
  induction bs generalizing n with
  | nil => simp [sumIds]
  | cons b bs ih =>
    rw [List.flatMap_cons, List.append_assoc, sseRun_block tk jp b (hg b (by simp)) _ m p n]
    rw [ih (fun x hx => hg x (by simp [hx])) (n + b.ids.length)]
    simp [sumIds, List.flatMap_cons, List.append_assoc, Nat.add_assoc]

theorem sseRun_done (tk : String → Option (List Nat)) (jp : String → Option Json)
    (dl : List String) (hdl : ∀ l ∈ dl, l ≠ "\n") (hmsg : msgAcc "" dl = "[DONE]")
    (extra : List String) (m p : Int) (n : Nat) :
    sseRun tk jp ((dl ++ ["\n"]) ++ extra) "" m p n =
      dl.flatMap lineTriple ++ lineTriple "\n" ++ [Ev.saveUsage m p (n : Int)] := by
  rw [List.append_assoc]
  show sseRun tk jp (dl ++ ("\n" :: extra)) "" m p n = _
  rw [sseRun_nonblank tk jp dl hdl ("\n" :: extra) "" m p n]
  have ht : sseRun tk jp ("\n" :: extra) (msgAcc "" dl) m p n =
      Ev.readLine "\n" :: Ev.write "\n" :: Ev.flush ::
        [Ev.saveUsage m p (n : Int)] := by
    simp [sseRun, hmsg]
  rw [ht]
  simp [lineTriple]

theorem usageEvents_lineTriple (l : String) : usageEvents (lineTriple l) = [] := rfl

theorem encCalls_lineTriple (l : String) : encCalls (lineTriple l) = [] := rfl

theorem readsOf_lineTriple (l : String) : readsOf (lineTriple l) = [l] := rfl

theorem usageEvents_triples (ls : List String) :
    usageEvents (ls.flatMap lineTriple) = [] := by
  induction ls with
  | nil => rfl
  | cons l ls ih =>
    rw [List.flatMap_cons, usageEvents_append, usageEvents_lineTriple, ih]
    rfl

theorem encCalls_triples (ls : List String) :
    encCalls (ls.flatMap lineTriple) = [] := by
  induction ls with
  | nil => rfl
  | cons l ls ih =>
    rw [List.flatMap_cons, encCalls_append, encCalls_lineTriple, ih]
    rfl

theorem readsOf_triples (ls : List String) :
    readsOf (ls.flatMap lineTriple) = ls := by
  induction ls with
  | nil => rfl
  | cons l ls ih =>
    rw [List.flatMap_cons, readsOf_append, readsOf_lineTriple, ih]
    rfl

theorem usageEvents_map_encode (ms : List String) :
    usageEvents (ms.map Ev.encode) = [] := by
  induction ms with
  | nil => rfl
  | cons c ms ih =>
    rw [List.map_cons]
    show usageEvents (Ev.encode c :: ms.map Ev.encode) = []
    rw [usageEvents, List.filterMap_cons]
    exact ih

theorem encCalls_map_encode (ms : List String) :
    encCalls (ms.map Ev.encode) = ms := by
  induction ms with
  | nil => rfl
  | cons c ms ih =>
    rw [List.map_cons]
    show encCalls (Ev.encode c :: ms.map Ev.encode) = c :: ms
    rw [encCalls, List.filterMap_cons]
    show c :: encCalls (ms.map Ev.encode) = c :: ms
    rw [ih]

theorem readsOf_map_encode (ms : List String) :
    readsOf (ms.map Ev.encode) = [] := by
  induction ms with
  | nil => rfl
  | cons c ms ih =>
    rw [List.map_cons]
    show readsOf (Ev.encode c :: ms.map Ev.encode) = []
    rw [readsOf, List.filterMap_cons]
    exact ih

theorem usageEvents_blockEvs (bs : List Blk) :
    usageEvents (bs.flatMap (fun b => b.lines.flatMap lineTriple ++ lineTriple "\n" ++
      [Ev.encode b.content])) = [] := by
  induction bs with
  | nil => rfl
  | cons b bs ih =>
    rw [List.flatMap_cons, usageEvents_append, usageEvents_append, usageEvents_append,
      usageEvents_triples, usageEvents_lineTriple, ih]
    rfl

theorem readsOf_blockEvs (bs : List Blk) :
    readsOf (bs.flatMap (fun b => b.lines.flatMap lineTriple ++ lineTriple "\n" ++
      [Ev.encode b.content])) = bs.flatMap blkLines := by
  induction bs with
  | nil => rfl
  | cons b bs ih =>
    rw [List.flatMap_cons, readsOf_append, readsOf_append, readsOf_append,
      readsOf_triples, readsOf_lineTriple, ih, List.flatMap_cons]
    show b.lines ++ ["\n"] ++ [] ++ bs.flatMap blkLines = blkLines b ++ bs.flatMap blkLines
    simp [blkLines]

theorem promptTokens_evs (tk : String → Option (List Nat)) (ms : List String)
    (n P : Nat) (h : (promptTokens tk ms n).2 = some P) :
    (promptTokens tk ms n).1 = ms.map Ev.encode := by
  induction ms generalizing n with
  | nil => rfl
  | cons c ms ih =>
    rcases htk : tk c with _ | ids
    · rw [promptTokens, htk] at h
      exact absurd h (by simp)
    · rw [promptTokens, htk] at h ⊢
      simp only [List.map_cons, List.cons.injEq, true_and]
      exact ih (n + ids.length) h

theorem wireStep_preserve (w : Wire) (e : Ev) (c : Nat) (h : w.status = some c) :
    (wireStep w e).status = some c ∧ (wireStep w e).sentHdrs = w.sentHdrs := by
  cases e <;> simp [wireStep, h]

theorem wireFold_preserve (t : List Ev) (w : Wire) (c : Nat) (h : w.status = some c) :
    (t.foldl wireStep w).status = some c ∧ (t.foldl wireStep w).sentHdrs = w.sentHdrs := by
  induction t generalizing w with
  | nil => exact ⟨h, rfl⟩
  | cons e t ih =>
    obtain ⟨h1, h2⟩ := wireStep_preserve w e c h
    obtain ⟨h3, h4⟩ := ih (wireStep w e) h1
    exact ⟨h3, h4.trans h2⟩

theorem hDel_not_mem (h : List (String × List String)) (k : String)
    (hk : ∀ kv ∈ h, kv.1 ≠ k) : hDel h k = h := by
  rw [hDel, List.filter_eq_self]
  intro kv hkv
  simpa using hk kv hkv

theorem hAdd_not_mem (h : List (String × List String)) (k v : String)
    (hk : ∀ kv ∈ h, kv.1 ≠ k) : hAdd h k v = h ++ [(k, [v])] := by
  rw [hAdd, if_neg]
  simp only [List.any_eq_true, decide_eq_true_eq, not_exists]
  intro kv hkv
  exact hk kv hkv.1 hkv.2

theorem hmap_not_mem (h : List (String × List String)) (k v : String)
    (hk : ∀ kv ∈ h, kv.1 ≠ k) :
    h.map (fun kv => if kv.1 = k then (kv.1, kv.2 ++ [v]) else kv) = h := by
  induction h with
  | nil => rfl
  | cons kv0 t ih =>
    rw [List.map_cons, if_neg (hk kv0 (by simp)), ih (fun x hx => hk x (by simp [hx]))]

theorem hAdd_last (h : List (String × List String)) (k v : String) (l : List String)
    (hk : ∀ kv ∈ h, kv.1 ≠ k) :
    hAdd (h ++ [(k, l)]) k v = h ++ [(k, l ++ [v])] := by
  rw [hAdd, if_pos]
  · rw [List.map_append]
    congr 1
    · exact hmap_not_mem h k v hk
    · simp
  · simp [List.any_append]

theorem hAdd_fold_last (h : List (String × List String)) (k : String) (vs l : List String)
    (hk : ∀ kv ∈ h, kv.1 ≠ k) :
    vs.foldl (fun h2 v => hAdd h2 k v) (h ++ [(k, l)]) = h ++ [(k, l ++ vs)] := by
  induction vs generalizing l with
  | nil => simp
  | cons v vs ih =>
    rw [List.foldl_cons, hAdd_last h k v l hk, ih (l ++ [v])]
    simp

theorem hdrEntry_build (h : List (String × List String)) (k : String) (vs : List String)
    (hk : ∀ kv ∈ h, kv.1 ≠ k) (hvs : vs ≠ []) :
    hdrEntry h (k, vs) = h ++ [(k, vs)] := by
  cases vs with
  | nil => exact absurd rfl hvs
  | cons v vs =>
    show (v :: vs).foldl (fun h2 w => hAdd h2 k w) (hDel h k) = _
    rw [hDel_not_mem h k hk, List.foldl_cons, hAdd_not_mem h k v hk, hAdd_fold_last h k vs [v] hk]
    simp

theorem hdrEntries_build (hs : List (String × List String)) (h : List (String × List String))
    (hnd : (hs.map Prod.fst).Nodup)
    (hdisj : ∀ kv ∈ hs, ∀ kv0 ∈ h, kv0.1 ≠ kv.1)
    (hne : ∀ kv ∈ hs, kv.2 ≠ []) :
    hs.foldl hdrEntry h = h ++ hs := by
  induction hs generalizing h with
  | nil => simp
  | cons kv hs ih =>
    rw [List.foldl_cons]
    have h1 : hdrEntry h kv = h ++ [kv] := by
      obtain ⟨k, vs⟩ := kv
      exact hdrEntry_build h k vs
        (fun kv0 h0 => hdisj (k, vs) (by simp) kv0 h0) (hne (k, vs) (by simp))
    rw [h1]
    rw [List.map_cons, List.nodup_cons] at hnd
    have h2 : ∀ a ∈ hs, ∀ kv0 ∈ h ++ [kv], kv0.1 ≠ a.1 := by
      intro a ha kv0 hkv0
      rcases List.mem_append.mp hkv0 with h0 | h0
      · exact hdisj a (by simp [ha]) kv0 h0
      · rw [List.mem_singleton] at h0
        subst h0
        intro hcontra
        exact hnd.1 (hcontra ▸ List.mem_map_of_mem Prod.fst ha)
    rw [ih (h ++ [kv]) hnd.2 h2 (fun a ha => hne a (by simp [ha]))]
    simp

theorem wireFold_hdrAdds (vs : List String) (k : String) (w : Wire) (h : w.status = none) :
    (vs.map (Ev.hdrAdd k)).foldl wireStep w =
      { w with hdrs := vs.foldl (fun h2 v => hAdd h2 k v) w.hdrs } := by
  induction vs generalizing w with
  | nil => rfl
  | cons v vs ih =>
    rw [List.map_cons, List.foldl_cons, List.foldl_cons]
    have hstep : wireStep w (Ev.hdrAdd k v) = { w with hdrs := hAdd w.hdrs k v } := by
      simp [wireStep, h]
    rw [hstep, ih { w with hdrs := hAdd w.hdrs k v } (by simpa using h)]

theorem wireFold_entry (kv : String × List String) (w : Wire) (h : w.status = none) :
    (Ev.hdrDel kv.1 :: kv.2.map (Ev.hdrAdd kv.1)).foldl wireStep w =
      { w with hdrs := hdrEntry w.hdrs kv } := by
  rw [List.foldl_cons]
  have hstep : wireStep w (Ev.hdrDel kv.1) = { w with hdrs := hDel w.hdrs kv.1 } := by
    simp [wireStep, h]
  rw [hstep, wireFold_hdrAdds kv.2 kv.1 { w with hdrs := hDel w.hdrs kv.1 } (by simpa using h)]
  rfl

theorem copyHeadersEvs_cons (kv : String × List String) (hs : List (String × List String)) :
    copyHeadersEvs (kv :: hs) =
      (Ev.hdrDel kv.1 :: kv.2.map (Ev.hdrAdd kv.1)) ++ copyHeadersEvs hs := rfl

theorem wireFold_copyHeaders (hs : List (String × List String)) (w : Wire)
    (h : w.status = none) :
    (copyHeadersEvs hs).foldl wireStep w = { w with hdrs := hs.foldl hdrEntry w.hdrs } := by
  induction hs generalizing w with
  | nil => rfl
  | cons kv hs ih =>
    rw [copyHeadersEvs_cons, List.foldl_append, wireFold_entry kv w h]
    rw [ih { w with hdrs := hdrEntry w.hdrs kv } (by simpa using h)]
    rfl

theorem usageEvents_saveSingleton (m p t : Int) :
    usageEvents [Ev.saveUsage m p t] = [(m, p, t)] := rfl

theorem readsOf_saveSingleton (m p t : Int) :
    readsOf [Ev.saveUsage m p t] = [] := rfl

theorem usageEvents_sseSetup :
    usageEvents [Ev.hdrSet "Content-Type" "text/event-stream",
      Ev.hdrSet "Cache-Control" "no-cache", Ev.hdrSet "Connection" "keep-alive",
      Ev.writeHeaderCall 200, Ev.flush] = [] := rfl

theorem encCalls_sseSetup :
    encCalls [Ev.hdrSet "Content-Type" "text/event-stream",
      Ev.hdrSet "Cache-Control" "no-cache", Ev.hdrSet "Connection" "keep-alive",
      Ev.writeHeaderCall 200, Ev.flush] = [] := rfl

theorem readsOf_sseSetup :
    readsOf [Ev.hdrSet "Content-Type" "text/event-stream",
      Ev.hdrSet "Cache-Control" "no-cache", Ev.hdrSet "Connection" "keep-alive",
      Ev.writeHeaderCall 200, Ev.flush] = [] := rfl

/-- Claim C1: for a streaming 200 response whose prompt fragments tokenize
to P tokens and whose blocks carry delta contents tokenizing to `sumIds bs`
tokens, followed by the end-of-stream sentinel block, the relay produces
exactly one usage record, with token count P plus the delta total; the
record is the final event of the trace — in particular it is produced only
after the sentinel block's lines have been observed — and there is a trace
prefix containing every prompt tokenization and no upstream read, so the
prompt's P tokens are computed before the streaming loop begins.  The lines
observed from upstream are exactly all block lines through the sentinel's
terminator, in order. -/
theorem C1_streaming_usage_after_sentinel
    (env : Env) (crb : CRB) (tk : String → Option (List Nat))
    (modelID projectID : Int) (respBody : String)
    (bs : List Blk) (dl extra : List String) (P : Nat)
    (hfl : env.flusherOK = true)
    (hp : (promptTokens tk crb.messages 0).2 = some P)
    (hlines : sseLines respBody = bs.flatMap blkLines ++ (dl ++ ["\n"]) ++ extra)
    (hbs : ∀ b ∈ bs, goodBlk tk env.jsonParse b)
    (hdl : ∀ l ∈ dl, l ≠ "\n")
    (hdone : msgAcc "" dl = "[DONE]") :
    usageEvents (proxySSEResponse env crb tk modelID projectID respBody) =
      [(modelID, projectID, ((P + sumIds bs : Nat) : Int))] ∧
    (∃ pre, proxySSEResponse env crb tk modelID projectID respBody =
      pre ++ [Ev.saveUsage modelID projectID ((P + sumIds bs : Nat) : Int)]) ∧
    (∃ pre post, proxySSEResponse env crb tk modelID projectID respBody = pre ++ post ∧
      encCalls pre = crb.messages ∧ readsOf pre = []) ∧
    readsOf (proxySSEResponse env crb tk modelID projectID respBody) =
      bs.flatMap blkLines ++ (dl ++ ["\n"]) := by
  have h0 : proxySSEResponse env crb tk modelID projectID respBody =
      [Ev.hdrSet "Content-Type" "text/event-stream",
       Ev.hdrSet "Cache-Control" "no-cache", Ev.hdrSet "Connection" "keep-alive",
       Ev.writeHeaderCall 200, Ev.flush] ++
        (crb.messages.map Ev.encode ++
          sseRun tk env.jsonParse (sseLines respBody) "" modelID projectID P) := by
    rw [proxySSEResponse, hfl]
    simp only [Bool.not_true, Bool.false_eq_true, if_false, hp,
      promptTokens_evs tk crb.messages 0 P hp]
    rfl
  have h1 : sseRun tk env.jsonParse (sseLines respBody) "" modelID projectID P =
      bs.flatMap (fun b => b.lines.flatMap lineTriple ++ lineTriple "\n" ++
          [Ev.encode b.content]) ++
        (dl.flatMap lineTriple ++ lineTriple "\n" ++
          [Ev.saveUsage modelID projectID ((P + sumIds bs : Nat) : Int)]) := by
    rw [hlines, List.append_assoc, sseRun_blocks tk env.jsonParse bs hbs _ modelID projectID P,
      sseRun_done tk env.jsonParse dl hdl hdone extra modelID projectID (P + sumIds bs)]
  refine ⟨?_, ?_, ?_, ?_⟩
  · rw [h0, h1, usageEvents_append, usageEvents_sseSetup, usageEvents_append,
      usageEvents_map_encode, usageEvents_append, usageEvents_blockEvs,
      usageEvents_append, usageEvents_append, usageEvents_triples,
      usageEvents_lineTriple, usageEvents_saveSingleton]
    rfl
  · refine ⟨[Ev.hdrSet "Content-Type" "text/event-stream",
      Ev.hdrSet "Cache-Control" "no-cache", Ev.hdrSet "Connection" "keep-alive",
      Ev.writeHeaderCall 200, Ev.flush] ++
        (crb.messages.map Ev.encode ++
          (bs.flatMap (fun b => b.lines.flatMap lineTriple ++ lineTriple "\n" ++
              [Ev.encode b.content]) ++
            (dl.flatMap lineTriple ++ lineTriple "\n"))), ?_⟩
    rw [h0, h1]
    simp [List.append_assoc]
  · refine ⟨[Ev.hdrSet "Content-Type" "text/event-stream",
      Ev.hdrSet "Cache-Control" "no-cache", Ev.hdrSet "Connection" "keep-alive",
      Ev.writeHeaderCall 200, Ev.flush] ++ crb.messages.map Ev.encode,
      sseRun tk env.jsonParse (sseLines respBody) "" modelID projectID P, ?_, ?_, ?_⟩
    · rw [h0, List.append_assoc]
    · rw [encCalls_append, encCalls_sseSetup, encCalls_map_encode]
      rfl
    · rw [readsOf_append, readsOf_sseSetup, readsOf_map_encode]
      rfl
  · rw [h0, h1, readsOf_append, readsOf_sseSetup, readsOf_append,
      readsOf_map_encode, readsOf_append, readsOf_blockEvs, readsOf_append,
      readsOf_append, readsOf_triples, readsOf_lineTriple, readsOf_saveSingleton]
    simp

theorem C1_streaming_usage_after_sentinel_witness :
    usageEvents (proxySSEResponse envFix crbC1 tkLen 3 2 "data:X\n\ndata: [DONE]\n\n") =
      [(3, 2, ((2 + sumIds [blkC1] : Nat) : Int))] ∧
    (∃ pre, proxySSEResponse envFix crbC1 tkLen 3 2 "data:X\n\ndata: [DONE]\n\n" =
      pre ++ [Ev.saveUsage 3 2 ((2 + sumIds [blkC1] : Nat) : Int)]) ∧
    (∃ pre post, proxySSEResponse envFix crbC1 tkLen 3 2 "data:X\n\ndata: [DONE]\n\n" =
        pre ++ post ∧
      encCalls pre = crbC1.messages ∧ readsOf pre = []) ∧
    readsOf (proxySSEResponse envFix crbC1 tkLen 3 2 "data:X\n\ndata: [DONE]\n\n") =
      [blkC1].flatMap blkLines ++ (["data: [DONE]\n"] ++ ["\n"]) :=
  C1_streaming_usage_after_sentinel envFix crbC1 tkLen 3 2 "data:X\n\ndata: [DONE]\n\n"
    [blkC1] ["data: [DONE]\n"] [] 2 rfl (by decide) (by decide) (by decide)
    (by decide) (by decide)

/-- Claim C2: the complete event trace of the streaming relay loop
decomposes, for some consumed prefix L of the upstream lines, into one
segment per line in upstream order: the events read-line, write-that-line,
flush, followed by that line's processing events — which are empty or
exactly one tokenizer call — and nothing else before the next line's read;
after the last segment only the terminal events remain (the usage record on
the sentinel, or one gateway-error response).  This is an equation on the
full trace, not a projection: every line is written to the client and
flushed before any further processing of that line and before the next
line is read, lines reach the client exactly in upstream order, and no two
lines are buffered before a flush. -/
theorem C2_streaming_immediate_ordered_relay
    (tk : String → Option (List Nat)) (jp : String → Option Json)
    (lines : List String) (msg : String) (m p : Int) (n : Nat) :
    ∃ L P tail,
      (∃ rest, lines = L ++ rest) ∧
      L.length = P.length ∧
      sseRun tk jp lines msg m p n =
        (List.zipWith (fun l pr => lineTriple l ++ pr) L P).flatten ++ tail ∧
      (∀ pr ∈ P, pr = [] ∨ ∃ c, pr = [Ev.encode c]) ∧
      ((∃ t, tail = [Ev.saveUsage m p t]) ∨ ∃ emsg, tail = httpErrorEvs emsg 502) := by
  induction lines generalizing msg n with
  | nil =>
    exact ⟨[], [], httpErrorEvs "failed to read response" 502, ⟨[], rfl⟩, rfl, rfl,
      by simp, Or.inr ⟨_, rfl⟩⟩
  | cons line rest ih =>
    by_cases hl : line = "\n"
    · subst hl
      by_cases hd : msg = "[DONE]"
      · refine ⟨["\n"], [[]], [Ev.saveUsage m p (n : Int)], ⟨rest, rfl⟩, rfl, ?_,
          by simp, Or.inl ⟨_, rfl⟩⟩
        simp [sseRun, hd, lineTriple]
      · rcases hjp : (jp msg).bind decodeStreamedBody with _ | contents
        · refine ⟨["\n"], [[]], httpErrorEvs "failed to unmarshal response" 502,
            ⟨rest, rfl⟩, rfl, ?_, by simp, Or.inr ⟨_, rfl⟩⟩
          simp [sseRun, hd, hjp, lineTriple]
        · by_cases hlen : contents.length = 1
          · obtain ⟨c, rfl⟩ := List.length_eq_one.mp hlen
            rcases htk : tk c with _ | ids
            · refine ⟨["\n"], [[Ev.encode c]],
                httpErrorEvs "failed to tokenize message" 502,
                ⟨rest, rfl⟩, rfl, ?_, ?_, Or.inr ⟨_, rfl⟩⟩
              · simp [sseRun, hd, hjp, htk, lineTriple]
              · intro pr hpr
                rw [List.mem_singleton] at hpr
                subst hpr
                exact Or.inr ⟨c, rfl⟩
            · obtain ⟨L, P, tail, ⟨r2, hr2⟩, hlp, htr, hP, htail⟩ :=
                ih "" (n + ids.length)
              refine ⟨"\n" :: L, [Ev.encode c] :: P, tail, ⟨r2, by rw [hr2]; rfl⟩,
                by simp [hlp], ?_, ?_, htail⟩
              · have ht : sseRun tk jp ("\n" :: rest) msg m p n =
                    Ev.readLine "\n" :: Ev.write "\n" :: Ev.flush :: Ev.encode c ::
                      sseRun tk jp rest "" m p (n + ids.length) := by
                  simp [sseRun, hd, hjp, htk]
                rw [ht, htr]
                simp [lineTriple]
              · intro pr hpr
                rcases List.mem_cons.mp hpr with hpr | hpr
                · subst hpr
                  exact Or.inr ⟨c, rfl⟩
                · exact hP pr hpr
          · refine ⟨["\n"], [[]],
              httpErrorEvs "0 or more than 1 choices in response" 502,
              ⟨rest, rfl⟩, rfl, ?_, by simp, Or.inr ⟨_, rfl⟩⟩
            simp [sseRun, hd, hjp, hlen, lineTriple]
    · obtain ⟨L, P, tail, ⟨r2, hr2⟩, hlp, htr, hP, htail⟩ :=
        ih (dataLineUpd msg line) n
      refine ⟨line :: L, [] :: P, tail, ⟨r2, by rw [hr2]; rfl⟩, by simp [hlp],
        ?_, ?_, htail⟩
      · have ht : sseRun tk jp (line :: rest) msg m p n =
            Ev.readLine line :: Ev.write line :: Ev.flush ::
              sseRun tk jp rest (dataLineUpd msg line) m p n := by
          simp [sseRun, hl]
        rw [ht, htr]
        simp [lineTriple]
      · intro pr hpr
        rcases List.mem_cons.mp hpr with hpr | hpr
        · subst hpr
          exact Or.inl rfl
        · exact hP pr hpr

/-- Claim C4: on every path that receives an upstream response, the trace
contains one `WriteHeader` call carrying the upstream status, preceded by
no body write and no other `WriteHeader` call; under the wire semantics the
committed status equals the upstream status (any later `WriteHeader` call,
such as the superfluous one on the streaming path, is ignored), and the
headers sent with it are exactly the upstream headers — the response-writer
map starts empty, so nothing is merged. -/
theorem C4_header_status_passthrough
    (env : Env) (r : Request) (uid : Int) (uname : String) (pid : Int) (crb : CRB)
    (tk : String → Option (List Nat)) (mid : Int) (resp : UpstreamResponse)
    (hm : r.method = "POST") (hq : r.rawQuery = "")
    (hu : env.findUser (goTrimPfx r.authHeader "Bearer ") = Except.ok (some (uid, uname)))
    (hpr : env.getProjectIDRes uid (if r.xProject = "" then "<default>" else r.xProject) =
      Except.ok pid)
    (hb : env.reqBodyReadErr = false)
    (hdec : (env.jsonParse r.body).bind decodeCompletionRequestBody = some crb)
    (hfm : env.forModel crb.model = some tk)
    (hmid : env.getModelIDRes crb.model = Except.ok mid)
    (hup : env.upstream = some resp)
    (hnd : (resp.headers.map Prod.fst).Nodup)
    (hne : ∀ kv ∈ resp.headers, kv.2 ≠ []) :
    (∃ pre post, proxyRequest env r = pre ++ Ev.writeHeaderCall resp.statusCode :: post ∧
      bodyWrites pre = [] ∧ (∀ c, Ev.writeHeaderCall c ∉ pre)) ∧
    (wireOf (proxyRequest env r)).status = some resp.statusCode ∧
    (wireOf (proxyRequest env r)).sentHdrs = resp.headers := by
  have ht : proxyRequest env r =
      ([Ev.getConn, Ev.findUser (goTrimPfx r.authHeader "Bearer "),
        Ev.getProject uid (if r.xProject = "" then "<default>" else r.xProject),
        Ev.forModel crb.model, Ev.getModel crb.model, Ev.upstreamSend] ++
        copyHeadersEvs resp.headers) ++
        Ev.writeHeaderCall resp.statusCode ::
          (if resp.statusCode ≠ 200 then [Ev.write resp.body]
           else if crb.stream then proxySSEResponse env crb tk mid pid resp.body
           else proxyPlainResponse env mid pid resp.body) := by
    rw [proxyRequest]
    simp [hm, hq, hu, hpr, hb, hdec, hfm, hmid, hup]
  generalize hT : (if resp.statusCode ≠ 200 then [Ev.write resp.body]
    else if crb.stream then proxySSEResponse env crb tk mid pid resp.body
    else proxyPlainResponse env mid pid resp.body) = T at ht
  constructor
  · refine ⟨_, T, ht, ?_, ?_⟩
    · rw [bodyWrites_append, bodyWrites_copyHeadersEvs]
      rfl
    · intro c hc
      rcases List.mem_append.mp hc with h0 | h0
      · simp at h0
      · exact writeHeaderCall_not_mem_copyHeadersEvs resp.headers c h0
  · rw [ht, wireOf, List.foldl_append, List.foldl_append]
    have h6 : ([Ev.getConn, Ev.findUser (goTrimPfx r.authHeader "Bearer "),
        Ev.getProject uid (if r.xProject = "" then "<default>" else r.xProject),
        Ev.forModel crb.model, Ev.getModel crb.model, Ev.upstreamSend]).foldl wireStep
        { hdrs := [], status := none, sentHdrs := [], body := [] } =
        { hdrs := [], status := none, sentHdrs := [], body := [] } := rfl
    rw [h6, wireFold_copyHeaders resp.headers _ rfl]
    have hbuild : resp.headers.foldl hdrEntry [] = resp.headers := by
      have := hdrEntries_build resp.headers [] hnd (by simp) hne
      simpa using this
    rw [List.foldl_cons]
    have hcommit : wireStep
        { hdrs := resp.headers.foldl hdrEntry [], status := none,
          sentHdrs := [], body := [] } (Ev.writeHeaderCall resp.statusCode) =
        { hdrs := resp.headers.foldl hdrEntry [], status := some resp.statusCode,
          sentHdrs := resp.headers.foldl hdrEntry [], body := [] } := rfl
    rw [hcommit]
    obtain ⟨h1, h2⟩ := wireFold_preserve T
      { hdrs := resp.headers.foldl hdrEntry [], status := some resp.statusCode,
        sentHdrs := resp.headers.foldl hdrEntry [], body := [] } resp.statusCode rfl
    rw [h1, h2]
    exact ⟨rfl, hbuild⟩

theorem C4_header_status_passthrough_witness :
    (∃ pre post, proxyRequest envNon200 reqStd =
        pre ++ Ev.writeHeaderCall 404 :: post ∧
      bodyWrites pre = [] ∧ (∀ c, Ev.writeHeaderCall c ∉ pre)) ∧
    (wireOf (proxyRequest envNon200 reqStd)).status = some 404 ∧
    (wireOf (proxyRequest envNon200 reqStd)).sentHdrs = [("X-A", ["1"])] :=
  C4_header_status_passthrough envNon200 reqStd 1 "alice" 2
    { model := "gpt-x", messages := ["hi"], stream := false } tkLen 3
    { statusCode := 404, headers := [("X-A", ["1"])], body := "oops" }
    rfl rfl rfl rfl rfl (by decide) rfl rfl rfl (by decide) (by decide)

theorem C5_non200_copy_no_usage_witness :
    usageEvents (proxyRequest envNon200 reqStd) = [] ∧
    encCalls (proxyRequest envNon200 reqStd) = [] ∧
    bodyWrites (proxyRequest envNon200 reqStd) = ["oops"] :=
  C5_non200_copy_no_usage envNon200 reqStd 1 "alice" 2
    { model := "gpt-x", messages := ["hi"], stream := false } tkLen 3
    { statusCode := 404, headers := [("X-A", ["1"])], body := "oops" }
    rfl rfl rfl rfl rfl (by decide) rfl rfl rfl (by decide)

end GptProxySplit
